import Mathlib

/-!
Verification of the Blueprint State Engine of the dnd-poc repository.

The repository is a React drag-and-drop page builder.  Its engine state is a
list of component instances (`canvasComponents`); the operations studied here
are the drag-end reconciler (`handleDragEnd`), whole-object prop replacement
(`handleUpdateComponent`), the table structural-resize handler
(`handleTableStructureChange`), numeric style-field editing
(`handleStyleChange`), transient-resource replacement for images
(`handleImageFileSelect` / `handleDrop`), and the export document (`pageJson`).

Each definition below is a shallow embedding of the correspondingly named
function from `src/src/components/Drag.jsx` (the main build) or
`src/src/components/DragAdvanced.jsx` (the `Adv`-suffixed variants).
JavaScript numbers reaching these handlers are integers or NaN (they come from
`parseInt`), modelled by `JsNum`; runtime exceptions (RangeError from invalid
array lengths) are modelled with `Except`.
-/

namespace DndPoc

/-- A JavaScript number as produced by `parseInt(value, 10)` on a form field:
either an integer or NaN. -/
inductive JsNum where
  | nan : JsNum
  | int : Int → JsNum
deriving DecidableEq, Repr

/-- JS subtraction on such numbers: any operation involving NaN yields NaN. -/
def jsub : JsNum → JsNum → JsNum
  | .int a, .int b => .int (a - b)
  | _, _ => .nan

/-- JS comparison `x > 0`; false when `x` is NaN. -/
def jgtZero : JsNum → Bool
  | .int a => decide (0 < a)
  | .nan => false

/-- Extraction of a nonnegative count from a `JsNum`; in the embedding below it
is applied only under a `jgtZero` guard, where it is exact. -/
def jsToNat : JsNum → Nat
  | .int a => a.toNat
  | .nan => 0

/-- JS `parseInt(s, 10)`: skip leading whitespace, optional sign, then take
leading decimal digits; NaN if there are none. -/
def jsParseInt (s : String) : JsNum :=
  let cs := s.toList.dropWhile Char.isWhitespace
  let signAndRest : Int × List Char :=
    match cs with
    | '-' :: t => (-1, t)
    | '+' :: t => (1, t)
    | t => (1, t)
  let digits := signAndRest.2.takeWhile Char.isDigit
  if digits.isEmpty then .nan
  else .int (signAndRest.1 * (digits.foldl (fun n c => 10 * n + (c.toNat - 48)) 0 : Nat))

/-- JS truthiness fallback `x || 0` for a number: NaN and 0 are falsy, so a
failed parse (and 0 itself) becomes 0. -/
def jsOrZero : JsNum → JsNum
  | .nan => .int 0
  | .int n => if n = 0 then .int 0 else .int n

/-- A JS runtime exception.  `rangeError n` is the RangeError thrown when `n`
is used as an array length (negative or NaN) in `arr.length = n` or
`Array(n)`. -/
inductive JsError where
  | rangeError : JsNum → JsError
deriving DecidableEq, Repr

/-- JS `Array(n).fill(v)`: a length-`n` array of `v`; throws RangeError when
`n` is negative or NaN. -/
def arrayFill (n : JsNum) (v : α) : Except JsError (List α) :=
  match n with
  | .int k => if k < 0 then .error (.rangeError n) else .ok (List.replicate k.toNat v)
  | .nan => .error (.rangeError .nan)

/-- JS `arr.length = n`: throws RangeError for negative or NaN `n`.  In the
source this assignment occurs only under a `diff <= 0` guard, i.e. with
`n ≤ arr.length`, where it truncates; `List.take` is that truncation. -/
def setLength (l : List α) (n : JsNum) : Except JsError (List α) :=
  match n with
  | .int k => if k < 0 then .error (.rangeError n) else .ok (l.take k.toNat)
  | .nan => .error (.rangeError .nan)

/-- The `data` prop of a Table instance: `{ headers, cells }`. -/
structure TableData where
  headers : List String
  cells : List (List String)
deriving DecidableEq, Repr

/-- The structural props of a Table instance read and written by
`handleTableStructureChange`.  The handler spreads `{ ...props }`, so every
other key (`styles`, ...) is carried over verbatim and is not modelled here. -/
structure TableProps where
  rows : JsNum
  cols : JsNum
  hasHeader : Bool
  data : TableData
deriving DecidableEq, Repr

/-- The change event reaching `handleTableStructureChange`: `e.target.name` is
one of the three structural fields; for the two number inputs `newPropValue`
is `parseInt(value, 10)` (NaN on parse failure), for the checkbox it is
`checked`. -/
inductive TableEvent where
  | rows (v : JsNum)
  | cols (v : JsNum)
  | hasHeader (b : Bool)
deriving DecidableEq, Repr

/-- The source's `const newCellRows = props.hasHeader ? newRows - 1 : newRows`
(Drag.jsx:479).  Note it reads the PRE-update `hasHeader`. -/
def effectiveCellRows (oldHasHeader : Bool) (newRows : JsNum) : JsNum :=
  if oldHasHeader then jsub newRows (.int 1) else newRows

/-- The per-row column adjustment inside `newCells.map` (Drag.jsx:489-496):
pad with `"New Cell"` when the column count grew, else `row.length = newCols`. -/
def padRow (newCols : JsNum) (row : List String) : Except JsError (List String) :=
  let colDiff := jsub newCols (.int row.length)
  if jgtZero colDiff then
    (arrayFill colDiff "New Cell").map (fun fill => row ++ fill)
  else
    setLength row newCols

/-- The header adjustment of the resize handler (Drag.jsx:470-478): grow by
appending `"New Header"` placeholders, else `currentData.headers.length =
newCols`. -/
def adjustHeaders (headers : List String) (newCols : JsNum) :
    Except JsError (List String) :=
  let headerDiff := jsub newCols (.int headers.length)
  if jgtZero headerDiff then
    (arrayFill headerDiff "New Header").map (fun fill => headers ++ fill)
  else
    setLength headers newCols

/-- The row-count adjustment of the resize handler (Drag.jsx:480-488): grow by
pushing `Array(newCols).fill("New Cell")` once per missing row, else
`newCells.length = newCellRows`.  `Array(newCols)` is evaluated on each loop
iteration with an identical result (and an identical error when `newCols` is
invalid), so it is hoisted out of the `List.replicate`. -/
def adjustRowCount (cells : List (List String)) (newCellRows newCols : JsNum) :
    Except JsError (List (List String)) :=
  let rowDiff := jsub newCellRows (.int cells.length)
  if jgtZero rowDiff then
    (arrayFill newCols "New Cell").map
      (fun fill => cells ++ List.replicate (jsToNat rowDiff) fill)
  else
    setLength cells newCellRows

/-- `handleTableStructureChange` (Drag.jsx:460-500), assembled from the three
adjustment steps above in source order. -/
def handleTableStructureChange (props : TableProps) (e : TableEvent) :
    Except JsError TableProps := do
  let newRows : JsNum := match e with | .rows v => v | _ => props.rows
  let newCols : JsNum := match e with | .cols v => v | _ => props.cols
  let newHasHeader : Bool := match e with | .hasHeader b => b | _ => props.hasHeader
  let headers ← adjustHeaders props.data.headers newCols
  let cells1 ← adjustRowCount props.data.cells
    (effectiveCellRows props.hasHeader newRows) newCols
  let cells2 ← cells1.mapM (padRow newCols)
  pure { rows := newRows, cols := newCols, hasHeader := newHasHeader,
         data := { headers := headers, cells := cells2 } }

/-- `generateDefaultTableData(rows, cols, hasHeader)` (Drag.jsx:218-226). -/
def generateDefaultTableData (rows cols : Nat) (hasHeader : Bool) : TableData :=
  let actualRows := if hasHeader then rows - 1 else rows
  { headers := (List.range cols).map (fun i => "Header " ++ toString (i + 1)),
    cells := (List.range actualRows).map (fun r =>
      (List.range cols).map (fun c => "Cell " ++ toString (r + 1) ++ "-" ++ toString (c + 1))) }

/-- The table shape invariant of the spec (section 3): `data.headers.length ==
cols`, `data.cells.length == rows - (hasHeader ? 1 : 0)`, and every row of
`data.cells` has length `cols`. -/
def tableShapeOK (p : TableProps) : Bool :=
  (p.cols == .int p.data.headers.length) &&
  (jsub p.rows (.int (if p.hasHeader then 1 else 0)) == .int p.data.cells.length) &&
  p.data.cells.all (fun row => p.cols == .int row.length)

/-- A JSON-representable JS value, the shape of everything stored in a
component's `props` (strings, integer numbers, booleans, nested objects such
as `styles` and `data`, arrays such as `data.cells`).  An object literal is
its ordered field list. -/
inductive JsValue where
  | str : String → JsValue
  | int : Int → JsValue
  | bool : Bool → JsValue
  | obj : List (String × JsValue) → JsValue
  | arr : List JsValue → JsValue

/-- The field list of a JS object, e.g. a component's `props`. -/
abbrev PropsObj := List (String × JsValue)

/-- JS property read `o[k]`: the value of the first field named `k`. -/
def getKey : List (String × α) → String → Option α
  | [], _ => none
  | kv :: t, k => if kv.1 == k then some kv.2 else getKey t k

/-- JS object spread with a computed key, `{ ...o, [k]: v }`: existing key
keeps its position with the new value, a fresh key is appended. -/
def setKey (o : List (String × α)) (k : String) (v : α) : List (String × α) :=
  if o.any (fun kv => kv.1 == k) then
    o.map (fun kv => if kv.1 == k then (k, v) else kv)
  else o ++ [(k, v)]

/-- One placed component instance of the canvas state `canvasComponents`. -/
structure Component where
  id : String
  type : String
  props : PropsObj

/-- The shared `styles` sub-object of most default templates in Drag.jsx. -/
def stdStyles (mt mb ml mr : Int) : JsValue :=
  .obj [("marginTop", .int mt), ("marginBottom", .int mb),
        ("marginLeft", .int ml), ("marginRight", .int mr)]

/-- A `styles` sub-object that also carries font fields. -/
def fontStyles (mt mb ml mr fs : Int) (color : String) : JsValue :=
  .obj [("marginTop", .int mt), ("marginBottom", .int mb),
        ("marginLeft", .int ml), ("marginRight", .int mr),
        ("fontSize", .int fs), ("color", .str color)]

/-- A `TableData` value as it appears inside `props.data`. -/
def tableDataToValue (d : TableData) : JsValue :=
  .obj [("headers", .arr (d.headers.map .str)),
        ("cells", .arr (d.cells.map (fun row => .arr (row.map .str))))]

/-- `DEFAULT_PROPS` of Drag.jsx (lines 228-306). -/
def defaultPropsDrag : String → PropsObj
  | "Button" =>
    [("text", .str "Click Me"), ("variant", .str "default"),
     ("styles", fontStyles 0 8 0 0 14 "#FFFFFF")]
  | "Input" =>
    [("label", .str "Field Label"), ("placeholder", .str "Enter value..."),
     ("styles", fontStyles 10 4 0 0 14 "#334155")]
  | "Textarea" =>
    [("label", .str "Message"), ("placeholder", .str "Your message here"),
     ("styles", fontStyles 10 4 0 0 14 "#334155")]
  | "Separator" => [("styles", stdStyles 10 4 0 0)]
  | "Image" =>
    [("src", .str "https://images.unsplash.com/photo-1599420186946-7b6fb4e297f0?ixlib=rb-1.2.1&auto=format&fit=crop&w=800&q=80"),
     ("alt", .str "A placeholder image"), ("styles", stdStyles 10 4 0 0)]
  | "Table" =>
    [("rows", .int 4), ("cols", .int 4), ("hasHeader", .bool true),
     ("data", tableDataToValue (generateDefaultTableData 4 4 true)),
     ("styles", stdStyles 10 4 0 0)]
  | "Text" =>
    [("text", .str "This is an editable text block. Click to select and edit in the properties panel."),
     ("styles", fontStyles 8 8 0 0 18 "#1e293b")]
  | "Description" =>
    [("text", .str "This is a smaller description text. Use it for details, captions, or supplementary information."),
     ("styles", fontStyles 4 4 0 0 14 "#475569")]
  | "Graph" =>
    [("chartType", .str "bar"), ("styles", stdStyles 10 4 0 0)]
  | _ => []

/-- The `styles` template shared by every DragAdvanced.jsx default. -/
def advStyles : JsValue := fontStyles 10 4 0 0 14 "#334155"

/-- `DEFAULT_PROPS` of DragAdvanced.jsx (lines 73-156).  The Button entry has
its own margins. -/
def defaultPropsAdv : String → PropsObj
  | "Button" =>
    [("text", .str "Click Me"), ("variant", .str "default"),
     ("styles", fontStyles 0 8 0 0 14 "#FFFFFF")]
  | "Input" =>
    [("label", .str "Field Label"), ("placeholder", .str "Enter value..."),
     ("styles", advStyles)]
  | "Textarea" =>
    [("label", .str "Message"), ("placeholder", .str "Your message here"),
     ("styles", advStyles)]
  | "Select" =>
    [("label", .str "Choose an option"), ("options", .str "Option 1,Option 2,Option 3"),
     ("styles", advStyles)]
  | "Checkbox" =>
    [("label", .str "Accept terms"), ("checked", .bool false), ("styles", advStyles)]
  | "Separator" => [("styles", advStyles)]
  | "Image" =>
    [("src", .str "https://www.dekoder.com/assets/mediaasset/image/DBD8X9/DBD8X9_600fd5934baa4c06b4ea595b9634a7a7.jpeg"),
     ("alt", .str "A beautiful sunset"), ("styles", advStyles)]
  | _ => []

/-- `Object.keys(COMPONENT_MAP)` of Drag.jsx: the palette type names. -/
def availableComponents : List String := ["Text", "Description", "Image", "Table"]

/-- `Object.keys(COMPONENT_MAP)` of DragAdvanced.jsx. -/
def availableComponentsAdv : List String :=
  ["Button", "Input", "Textarea", "Separator", "Image"]

/-- JS `Array.prototype.findIndex`: the index of the first match, `-1` when
there is none. -/
def findIndexJs (p : α → Bool) (l : List α) : Int :=
  match l.findIdx? p with
  | some i => (i : Int)
  | none => -1

/-- Normalization of a splice start index against a length `len`: a negative
index counts from the end (clamped at 0), a nonnegative one is clamped at
`len`. -/
def spliceIdx (len : Nat) (i : Int) : Nat :=
  if i < 0 then ((len : Int) + i).toNat else min i.toNat len

/-- dnd-kit's `arrayMove(array, from, to)`, imported by both builds:
`newArray.splice(to < 0 ? newArray.length + to : to, 0,
newArray.splice(from, 1)[0])`.  The `to` offset is resolved against the
pre-removal length, the element is removed at `from`, and the insertion index
is then normalized against the post-removal array.  A `from` that resolves to
no element would splice in `undefined`; the callers always pass an index of a
present element (or `-1`, which resolves to the last element), so that branch
returns the list unchanged. -/
def arrayMove (l : List α) (i j : Int) : List α :=
  match l[spliceIdx l.length i]? with
  | none => l
  | some x =>
    List.insertIdx
      (spliceIdx (l.eraseIdx (spliceIdx l.length i)).length
        (if j < 0 then (l.length : Int) + j else j))
      x (l.eraseIdx (spliceIdx l.length i))

/-- `handleDragEnd` of Drag.jsx (lines 873-909).  `active` is the dragged id
(a palette type name or a canvas instance id), `over` the drop target's id if
any, `now` the `Date.now()` timestamp used to mint ids.  The palette branch
builds its props with `JSON.parse(JSON.stringify(DEFAULT_PROPS[active]))`; at
this by-value layer the clone is the template value itself (object identity is
studied separately in the heap model below). -/
def handleDragEnd (canvas : List Component) (active : String) (over : Option String)
    (now : Nat) : List Component :=
  match over with
  | none => canvas
  | some overId =>
    if availableComponents.contains active then
      let newComponent : Component :=
        { id := active ++ "-" ++ toString now, type := active,
          props := defaultPropsDrag active }
      let overIndex := findIndexJs (fun c => c.id == overId) canvas
      if overIndex != -1 then
        List.insertIdx overIndex.toNat newComponent canvas
      else
        canvas ++ [newComponent]
    else
      if canvas.any (fun c => c.id == active) && canvas.any (fun c => c.id == overId)
          && active != overId then
        arrayMove canvas (findIndexJs (fun c => c.id == active) canvas)
                         (findIndexJs (fun c => c.id == overId) canvas)
      else canvas

/-- `handleDragEnd` of DragAdvanced.jsx (lines 544-560): the palette branch
always appends, and the reorder branch checks only `active.id !== over.id`
before calling `arrayMove` with `findIndex` results that may be `-1`. -/
def handleDragEndAdv (canvas : List Component) (active : String) (over : Option String)
    (now : Nat) : List Component :=
  match over with
  | none => canvas
  | some overId =>
    if availableComponentsAdv.contains active then
      canvas ++ [{ id := active ++ "-" ++ toString now, type := active,
                   props := defaultPropsAdv active }]
    else
      if active != overId then
        arrayMove canvas (findIndexJs (fun c => c.id == active) canvas)
                         (findIndexJs (fun c => c.id == overId) canvas)
      else canvas

/-- `handleUpdateComponent(id, newProps)` (Drag.jsx:869-872, identical in
DragAdvanced.jsx): whole-object replacement of the matching instance's
`props`. -/
def handleUpdateComponent (canvas : List Component) (id : String)
    (newProps : PropsObj) : List Component :=
  canvas.map (fun comp => if comp.id == id then { comp with props := newProps } else comp)

/-- A value stored in the `styles` object: a JS number (possibly NaN, since
`parseInt` results are stored unchecked) or a string such as a color. -/
inductive StyleEntry where
  | num : JsNum → StyleEntry
  | str : String → StyleEntry
deriving DecidableEq, Repr

/-- `handleStyleChange` of Drag.jsx's PropertiesPanel (lines 507-517),
restricted to the `styles` object it rebuilds (the surrounding update is
`{ ...props, styles: result }`): a number input stores `parseInt(value, 10)`
with no fallback, any other input stores the raw string. -/
def handleStyleChange (styles : List (String × StyleEntry)) (name value : String)
    (isNumberInput : Bool) : List (String × StyleEntry) :=
  setKey styles name (if isNumberInput then .num (jsParseInt value) else .str value)

/-- `handleStyleChange` of the DragDrop variant (Drag.jsx:1315-1321):
every style field is stored as `parseInt(value, 10) || 0`. -/
def handleStyleChangeDD (styles : List (String × StyleEntry)) (name value : String) :
    List (String × StyleEntry) :=
  setKey styles name (.num (jsOrZero (jsParseInt value)))

/-- JS `s.startsWith(pre)`, stated on the character lists of the strings. -/
def jsStartsWith (s pre : String) : Bool :=
  pre.toList.isPrefixOf s.toList

/-- A dropped or picked file: only its MIME type matters to the handlers. -/
structure JsFile where
  mimeType : String
deriving DecidableEq, Repr

/-- `URL.createObjectURL` modelled as minting `blob:<n>` from a fresh counter. -/
def createObjectURL (n : Nat) : String × Nat := ("blob:" ++ toString n, n + 1)

/-- The transient-resource guard both image handlers use before revoking:
`props.src && props.src.startsWith("blob:")`. -/
def isTransientSrc : Option JsValue → Option String
  | some (.str s) => if s != "" && jsStartsWith s "blob:" then some s else none
  | _ => none

/-- `handleImageFileSelect` (Drag.jsx:518-527): on a picked image file, mint a
new object URL, revoke the previous `src` when it is a blob URL, and store the
new URL.  Returns the updated props, the next counter state, and the list of
`URL.revokeObjectURL` calls made. -/
def handleImageFileSelect (props : PropsObj) (file : Option JsFile) (urlCounter : Nat) :
    PropsObj × Nat × List String :=
  match file with
  | none => (props, urlCounter, [])
  | some f =>
    if jsStartsWith f.mimeType "image/" then
      let minted := createObjectURL urlCounter
      let released := match isTransientSrc (getKey props "src") with
        | some s => [s]
        | none => []
      (setKey props "src" (.str minted.1), minted.2, released)
    else (props, urlCounter, [])

/-- `handleDrop` of SortableCanvasItem (Drag.jsx:359-371).  It destructures
`const { styles, ...props } = component.props` and updates with
`{ ...props, src: newSrc }` (so the committed props have no `styles` key). -/
def handleDrop (componentProps : PropsObj) (file : Option JsFile) (urlCounter : Nat) :
    PropsObj × Nat × List String :=
  let props := componentProps.filter (fun kv => kv.1 != "styles")
  match file with
  | none => (props, urlCounter, [])
  | some f =>
    if jsStartsWith f.mimeType "image/" then
      let minted := createObjectURL urlCounter
      let released := match isTransientSrc (getKey props "src") with
        | some s => [s]
        | none => []
      (setKey props "src" (.str minted.1), minted.2, released)
    else (props, urlCounter, [])

/-- A component as it appears in the exported document's `components` array. -/
def componentToValue (c : Component) : JsValue :=
  .obj [("id", .str c.id), ("type", .str c.type), ("props", .obj c.props)]

/-- The `pageJson` document of the ExportModal (Drag.jsx:827-831):
`JSON.stringify({ name: "Exported Page", components }, null, 2)`, modelled at
the value level as the object handed to `JSON.stringify`. -/
def pageJson (components : List Component) : JsValue :=
  .obj [("name", .str "Exported Page"),
        ("components", .arr (components.map componentToValue))]

/-- Modelled from the spec: the repository has no deserialization routine (the
document is consumed by the excluded backend/renderer collaborators), so
`fromJSON` follows sections 4.5 and 6 of the spec: read `id`, `type` and
`props` of one member of the `components` array. -/
def componentFromValue : JsValue → Option Component
  | .obj fields =>
    match getKey fields "id", getKey fields "type", getKey fields "props" with
    | some (.str id), some (.str type), some (.obj props) =>
      some { id := id, type := type, props := props }
    | _, _, _ => none
  | _ => none

/-- Modelled from the spec: `fromJSON` (sections 4.5 and 8), absent from the
repository.  It parses the canonical document `{ name, components }` back into
the ordered instance sequence, requiring `name` to be a string and every
member of `components` to be a well-formed instance. -/
def fromJSON (doc : JsValue) : Option (List Component) :=
  match doc with
  | .obj fields =>
    match getKey fields "name", getKey fields "components" with
    | some (.str _), some (.arr items) => items.mapM componentFromValue
    | _, _ => none
  | _ => none

/-!
Heap model of JS object identity, used to compare the two palette-insertion
variants: Drag.jsx clones the default-props template with
`JSON.parse(JSON.stringify(...))`, while DragAdvanced.jsx binds the template
object itself.  A heap is a list of objects addressed by position; a value is
a scalar or a reference to a heap object.
-/

/-- A JS runtime value with object identity: scalars, or a reference to a
heap-allocated object. -/
inductive HVal where
  | str : String → HVal
  | int : Int → HVal
  | bool : Bool → HVal
  | ref : Nat → HVal
deriving DecidableEq, Repr

/-- A heap object: its ordered field list. -/
abbrev HObj := List (String × HVal)

/-- A JS heap: objects addressed by allocation order. -/
structure Heap where
  objs : List HObj
deriving DecidableEq, Repr

/-- Allocate a fresh object, returning its address. -/
def Heap.alloc (h : Heap) (o : HObj) : Heap × Nat :=
  ({ objs := h.objs ++ [o] }, h.objs.length)

/-- Read `obj.k` through the reference `a`. -/
def Heap.readField (h : Heap) (a : Nat) (k : String) : Option HVal :=
  (h.objs[a]?).bind (fun o => getKey o k)

/-- In-place JS assignment `obj.k = v` through the reference `a`. -/
def Heap.setField (h : Heap) (a : Nat) (k : String) (v : HVal) : Heap :=
  { objs := h.objs.set a (setKey (h.objs.getD a []) k v) }

/-- One level of the JSON-round-trip deep clone: scalars are copied, a
reference is chased, each field of the referenced object is cloned by `recur`
left to right, and the rebuilt object is allocated fresh. -/
def deepCloneStep (recur : Heap → HVal → Heap × HVal) (h : Heap) (v : HVal) :
    Heap × HVal :=
  match v with
  | .ref a =>
    match h.objs[a]? with
    | none => (h, .ref a)
    | some fields =>
      let cloned := fields.foldl
        (fun (acc : Heap × HObj) kv =>
          let r := recur acc.1 kv.2
          (r.1, acc.2 ++ [(kv.1, r.2)])) (h, ([] : HObj))
      let al := cloned.1.alloc cloned.2
      (al.1, .ref al.2)
  | v => (h, v)

/-- `JSON.parse(JSON.stringify(v))` as a deep clone of the object graph.
`fuel` bounds the recursion depth; the default-props templates are trees of
depth 2, so any fuel above that makes the clone exact (`JSON.stringify`
rejects cyclic values, which therefore need no model). -/
def deepCloneVal : Nat → Heap → HVal → Heap × HVal
  | 0, h, v => (h, v)
  | fuel + 1, h, v => deepCloneStep (deepCloneVal fuel) h v

/-- The props binding of the palette branch of DragAdvanced.jsx's
`handleDragEnd` (line 552): `props: DEFAULT_PROPS[active.id]` — the template
object's own reference, not a copy. -/
def insertPropsAdv (templateAddr : Nat) : HVal := .ref templateAddr

/-- The props binding of the palette branch of Drag.jsx's `handleDragEnd`
(line 880): `props: JSON.parse(JSON.stringify(DEFAULT_PROPS[active.id]))` — a
deep clone of the template. -/
def insertPropsDrag (h : Heap) (templateAddr : Nat) : Heap × HVal :=
  deepCloneVal 8 h (.ref templateAddr)

/-- The `DEFAULT_PROPS.Button` template (identical field values in both
builds) laid out on a heap: the props object at address 0 holds a reference to
its `styles` object at address 1. -/
def buttonTemplateHeap : Heap :=
  { objs :=
      [[("text", .str "Click Me"), ("variant", .str "default"), ("styles", .ref 1)],
       [("marginTop", .int 0), ("marginBottom", .int 8), ("marginLeft", .int 0),
        ("marginRight", .int 0), ("fontSize", .int 14), ("color", .str "#FFFFFF")]] }

/-- The heap after Drag.jsx's palette insertion clones the Button template:
the styles clone lives at address 2 and the props clone at address 3. -/
def buttonHeapCloned : Heap :=
  { objs :=
      [[("text", .str "Click Me"), ("variant", .str "default"), ("styles", .ref 1)],
       [("marginTop", .int 0), ("marginBottom", .int 8), ("marginLeft", .int 0),
        ("marginRight", .int 0), ("fontSize", .int 14), ("color", .str "#FFFFFF")],
       [("marginTop", .int 0), ("marginBottom", .int 8), ("marginLeft", .int 0),
        ("marginRight", .int 0), ("fontSize", .int 14), ("color", .str "#FFFFFF")],
       [("text", .str "Click Me"), ("variant", .str "default"), ("styles", .ref 2)]] }

/-!
Concrete fixtures used by the closed theorems and witnesses below.  The table
and store scenarios are the spec's own concrete scenarios (section 8).
-/

/-- Spec scenario 3's table: `rows=4, cols=2, hasHeader=true` with 3 rows by 2
columns of literal text. -/
def tableScenario3 : TableProps :=
  { rows := .int 4, cols := .int 2, hasHeader := true,
    data := { headers := ["Name", "Age"],
              cells := [["Ada", "36"], ["Grace", "85"], ["Edsger", "72"]] } }

/-- The result of editing `rows` to 6 on `tableScenario3`. -/
def tableScenario3Grown : TableProps :=
  { rows := .int 6, cols := .int 2, hasHeader := true,
    data := { headers := ["Name", "Age"],
              cells := [["Ada", "36"], ["Grace", "85"], ["Edsger", "72"],
                        ["New Cell", "New Cell"], ["New Cell", "New Cell"]] } }

/-- A shape-correct headerless table, about to have its header enabled. -/
def tableNoHeader : TableProps :=
  { rows := .int 4, cols := .int 2, hasHeader := false,
    data := { headers := ["H1", "H2"],
              cells := [["a", "b"], ["c", "d"], ["e", "f"], ["g", "h"]] } }

/-- What `handleTableStructureChange` commits when the header of
`tableNoHeader` is enabled: the cells are left at 4 rows. -/
def tableHeaderToggled : TableProps :=
  { rows := .int 4, cols := .int 2, hasHeader := true,
    data := { headers := ["H1", "H2"],
              cells := [["a", "b"], ["c", "d"], ["e", "f"], ["g", "h"]] } }

/-- The default Table instance props (`DEFAULT_PROPS.Table`). -/
def defaultTableProps : TableProps :=
  { rows := .int 4, cols := .int 4, hasHeader := true,
    data := generateDefaultTableData 4 4 true }

/-- Canvas instance A of spec scenario 2. -/
def compA : Component :=
  { id := "Text-1", type := "Text", props := defaultPropsDrag "Text" }

/-- Canvas instance B of spec scenario 2. -/
def compB : Component :=
  { id := "Description-2", type := "Description", props := defaultPropsDrag "Description" }

/-- Canvas instance C of spec scenario 2. -/
def compC : Component :=
  { id := "Image-3", type := "Image", props := defaultPropsDrag "Image" }

/-- Spec scenario 2's store `[A, B, C]`. -/
def store3 : List Component := [compA, compB, compC]

/-- A DragAdvanced canvas instance. -/
def advCompA : Component :=
  { id := "Button-100", type := "Button", props := defaultPropsAdv "Button" }

/-- A second DragAdvanced canvas instance. -/
def advCompB : Component :=
  { id := "Input-101", type := "Input", props := defaultPropsAdv "Input" }

/-- A two-instance DragAdvanced canvas. -/
def advStore : List Component := [advCompA, advCompB]

/-- Spec scenario 5's single-instance canvas. -/
def demoCanvas : List Component :=
  [{ id := "Input-1", type := "Input",
     props := [("label", .str "Old"), ("placeholder", .str "X")] }]

/-- Spec scenario 5's replacement props. -/
def demoProps : PropsObj := [("label", .str "New"), ("placeholder", .str "X")]

/-- The instance spec scenario 5 expects after the replacement. -/
def demoUpdated : Component := { id := "Input-1", type := "Input", props := demoProps }

/-- The Text default `styles` object as stored style values. -/
def textStyles : List (String × StyleEntry) :=
  [("marginTop", .num (.int 8)), ("marginBottom", .num (.int 8)),
   ("marginLeft", .num (.int 0)), ("marginRight", .num (.int 0)),
   ("fontSize", .num (.int 18)), ("color", .str "#1e293b")]

/-- An Image instance's props whose `src` is a bound transient resource. -/
def imageBlobProps : PropsObj :=
  [("src", .str "blob:7"), ("alt", .str "A placeholder image"),
   ("styles", stdStyles 10 4 0 0)]

/-- A picked image file. -/
def pngFile : JsFile := { mimeType := "image/png" }

/-- Two successive file-pick replacements of the same instance's `src`
(spec section 8, the resource-lifecycle property): the final props, the final
URL-counter state, and the concatenated release log. -/
def replaceTwice (props : PropsObj) (f1 f2 : Option JsFile) (n : Nat) :
    PropsObj × Nat × List String :=
  let r1 := handleImageFileSelect props f1 n
  let r2 := handleImageFileSelect r1.1 f2 r1.2.1
  (r2.1, r2.2.1, r1.2.2 ++ r2.2.2)

end DndPoc

namespace DndPoc

/-!
General lemmas about the embedding's building blocks, shared by the claim
theorems below.
-/

theorem except_bind_ok {ε α β : Type} {e : Except ε α} {f : α → Except ε β} {b : β}
    (h : e >>= f = .ok b) : ∃ a, e = .ok a ∧ f a = .ok b := by
  cases e with
  | error err => simp [Bind.bind, Except.bind] at h
  | ok a => exact ⟨a, rfl, by simpa [Bind.bind, Except.bind] using h⟩

theorem except_pure_ok {ε α : Type} {a b : α}
    (h : (pure a : Except ε α) = .ok b) : a = b :=
  Except.ok.inj h

theorem arrayFill_ok {α : Type} {n : JsNum} {v : α} {l : List α}
    (h : arrayFill n v = .ok l) :
    ∃ k : Int, n = .int k ∧ 0 ≤ k ∧ l = List.replicate k.toNat v := by
  cases n with
  | nan => simp [arrayFill] at h
  | int k =>
    by_cases hk : k < 0
    · simp [arrayFill, hk] at h
    · simp [arrayFill, hk] at h
      exact ⟨k, rfl, by omega, h.symm⟩

theorem setLength_ok {α : Type} {n : JsNum} {l l' : List α}
    (h : setLength l n = .ok l') :
    ∃ k : Int, n = .int k ∧ 0 ≤ k ∧ l' = l.take k.toNat := by
  cases n with
  | nan => simp [setLength] at h
  | int k =>
    by_cases hk : k < 0
    · simp [setLength, hk] at h
    · simp [setLength, hk] at h
      exact ⟨k, rfl, by omega, h.symm⟩

/-- Both the header adjustment and the per-row column adjustment of the resize
handler either append placeholder copies or truncate. -/
theorem growOrTrunc_shape {grow n : JsNum} {old l : List String} {ph : String}
    (h : (if jgtZero grow then (arrayFill grow ph).map (fun fill => old ++ fill)
          else setLength old n) = .ok l) :
    (∃ k, l = old ++ List.replicate k ph) ∨ (∃ m, l = old.take m) := by
  split at h
  · cases hfa : arrayFill grow ph with
    | error err => rw [hfa] at h; simp [Except.map] at h
    | ok fill =>
      rw [hfa] at h
      obtain ⟨k, -, -, hfe⟩ := arrayFill_ok hfa
      refine .inl ⟨k.toNat, ?_⟩
      have hl : old ++ fill = l := by simpa [Except.map] using h
      rw [← hl, hfe]
  · obtain ⟨m, -, -, he⟩ := setLength_ok h
    exact .inr ⟨m.toNat, he⟩

theorem padRow_shape {nc : JsNum} {row row' : List String}
    (h : padRow nc row = .ok row') :
    (∃ k, row' = row ++ List.replicate k "New Cell") ∨ (∃ m, row' = row.take m) := by
  unfold padRow at h
  exact growOrTrunc_shape h

theorem adjustHeaders_shape {nc : JsNum} {old l : List String}
    (h : adjustHeaders old nc = .ok l) :
    (∃ k, l = old ++ List.replicate k "New Header") ∨ (∃ m, l = old.take m) := by
  unfold adjustHeaders at h
  exact growOrTrunc_shape h

/-- The row-count adjustment of the resize handler either appends placeholder
rows or truncates. -/
theorem adjustRowCount_shape {ncr newCols : JsNum} {old l : List (List String)}
    (h : adjustRowCount old ncr newCols = .ok l) :
    (∃ t s, l = old ++ List.replicate t (List.replicate s "New Cell")) ∨
      (∃ m, l = old.take m) := by
  simp only [adjustRowCount] at h
  split at h
  · cases hfa : arrayFill newCols "New Cell" with
    | error err => rw [hfa] at h; simp [Except.map] at h
    | ok fill =>
      rw [hfa] at h
      obtain ⟨k, -, -, hfe⟩ := arrayFill_ok hfa
      refine .inl ⟨jsToNat (jsub ncr (.int old.length)), k.toNat, ?_⟩
      have hl : old ++ List.replicate (jsToNat (jsub ncr (.int old.length))) fill = l := by
        simpa [Except.map] using h
      rw [← hl, hfe]
  · obtain ⟨m, -, -, he⟩ := setLength_ok h
    exact .inr ⟨m.toNat, he⟩

theorem mapM_except_ok {ε α β : Type} {f : α → Except ε β} :
    ∀ {l : List α} {l' : List β}, l.mapM f = .ok l' →
      l'.length = l.length ∧
      ∀ (i : Nat) (a : α), l[i]? = some a → ∃ b, l'[i]? = some b ∧ f a = .ok b := by
  intro l
  induction l with
  | nil =>
    intro l' h
    simp only [List.mapM_nil] at h
    have : ([] : List β) = l' := by simpa [Pure.pure, Except.pure] using h
    subst this
    exact ⟨rfl, by intro i a ha; simp at ha⟩
  | cons a t ih =>
    intro l' h
    rw [List.mapM_cons] at h
    obtain ⟨b, hb, h⟩ := except_bind_ok h
    obtain ⟨bs, hbs, h⟩ := except_bind_ok h
    have : (b :: bs : List β) = l' := by simpa [Pure.pure, Except.pure] using h
    subst this
    obtain ⟨hlen, hpt⟩ := ih hbs
    refine ⟨by simp [hlen], ?_⟩
    intro i x hx
    cases i with
    | zero =>
      simp only [List.getElem?_cons_zero, Option.some.injEq] at hx
      subst hx
      exact ⟨b, by simp, hb⟩
    | succ i =>
      simp only [List.getElem?_cons_succ] at hx ⊢
      exact hpt i x hx

end DndPoc

namespace DndPoc

/-- Every entry of (a truncation of) concatenated placeholder runs is the
placeholder. -/
theorem replicate_like_all {α : Type} {v : α} {row' : List α}
    (h : (∃ s k, row' = List.replicate s v ++ List.replicate k v) ∨
         (∃ s m, row' = (List.replicate s v).take m)) :
    ∀ c, c < row'.length → row'[c]? = some v := by
  rcases h with ⟨s, k, rfl⟩ | ⟨s, m, rfl⟩
  · intro c hc
    rw [← List.replicate_add] at hc ⊢
    simpa [List.getElem?_replicate] using by
      simpa [List.length_replicate] using hc
  · intro c hc
    rw [List.take_replicate] at hc ⊢
    simpa [List.getElem?_replicate] using by
      simpa [List.length_replicate] using hc

theorem getKey_map_set {α : Type} (k : String) (v : α) :
    ∀ (o : List (String × α)), o.any (fun kv => kv.1 == k) = true →
      getKey (o.map (fun kv => if kv.1 == k then (k, v) else kv)) k = some v := by
  intro o
  induction o with
  | nil => intro h; simp at h
  | cons kv t ih =>
    intro hany
    by_cases hk : (kv.1 == k) = true
    · simp [getKey, hk]
    · have hany' : t.any (fun kv => kv.1 == k) = true := by
        simpa [List.any_cons, hk] using hany
      simpa [getKey, hk] using ih hany'

theorem getKey_append_absent {α : Type} (k : String) (v : α) :
    ∀ (o : List (String × α)), o.any (fun kv => kv.1 == k) = false →
      getKey (o ++ [(k, v)]) k = some v := by
  intro o
  induction o with
  | nil => simp [getKey]
  | cons kv t ih =>
    intro hany
    rw [List.any_cons] at hany
    have hk : (kv.1 == k) = false := by
      cases hkk : (kv.1 == k) with
      | true => rw [hkk] at hany; simp at hany
      | false => rfl
    have hany' : t.any (fun kv => kv.1 == k) = false := by
      rw [hk] at hany; simpa using hany
    simpa [getKey, hk] using ih hany'

theorem getKey_setKey_self {α : Type} (o : List (String × α)) (k : String) (v : α) :
    getKey (setKey o k v) k = some v := by
  unfold setKey
  by_cases hany : o.any (fun kv => kv.1 == k) = true
  · rw [if_pos hany]; exact getKey_map_set k v o hany
  · rw [if_neg hany]
    exact getKey_append_absent k v o (Bool.eq_false_iff.mpr hany)

theorem getKey_map_set_ne {α : Type} (k k' : String) (v : α) (hne : k' ≠ k) :
    ∀ o : List (String × α),
      getKey (o.map (fun kv => if kv.1 == k then (k, v) else kv)) k' = getKey o k' := by
  intro o
  induction o with
  | nil => rfl
  | cons kv t ih =>
    by_cases hk : (kv.1 == k) = true
    · have hkv : kv.1 = k := by simpa using hk
      have h1 : (kv.1 == k') = false := by
        rw [hkv]; exact beq_eq_false_iff_ne.mpr (fun h => hne h.symm)
      have h2 : (k == k') = false := beq_eq_false_iff_ne.mpr (fun h => hne h.symm)
      simp only [List.map_cons, hk, if_true, getKey, h2, Bool.false_eq_true,
        if_false, h1]
      exact ih
    · simp only [List.map_cons, hk, Bool.false_eq_true, if_false, getKey]
      by_cases h2 : (kv.1 == k') = true
      · simp [h2]
      · simp only [h2, Bool.false_eq_true, if_false]
        exact ih

theorem getKey_append_ne {α : Type} (k k' : String) (v : α) (hne : k' ≠ k) :
    ∀ o : List (String × α), getKey (o ++ [(k, v)]) k' = getKey o k' := by
  intro o
  induction o with
  | nil =>
    have h2 : (k == k') = false := beq_eq_false_iff_ne.mpr (fun h => hne h.symm)
    simp [getKey, h2]
  | cons kv t ih =>
    simp only [List.cons_append, getKey]
    by_cases h2 : (kv.1 == k') = true
    · simp [h2]
    · simp only [h2, Bool.false_eq_true, if_false]
      exact ih

/-- Keys untouched by `setKey` read as before. -/
theorem getKey_setKey_ne {α : Type} (o : List (String × α)) (k k' : String) (v : α)
    (hne : (k' == k) = false) : getKey (setKey o k v) k' = getKey o k' := by
  have hne' : k' ≠ k := by simpa using hne
  unfold setKey
  split
  · exact getKey_map_set_ne k k' v hne' o
  · exact getKey_append_ne k k' v hne' o

/-- Filtering out a differently named key does not change a lookup. -/
theorem getKey_filter_ne {α : Type} (o : List (String × α)) (k bad : String)
    (hk : (k == bad) = false) :
    getKey (o.filter (fun kv => kv.1 != bad)) k = getKey o k := by
  have hkn : k ≠ bad := by simpa using hk
  induction o with
  | nil => rfl
  | cons kv t ih =>
    by_cases h1 : (kv.1 == k) = true
    · have hkv : kv.1 = k := by simpa using h1
      have hsur : (kv.1 != bad) = true := by simp [hkv, hkn]
      simp [List.filter_cons, hsur, getKey, h1]
    · by_cases h2 : (kv.1 != bad) = true
      · simpa [List.filter_cons, h2, getKey, h1] using ih
      · simpa [List.filter_cons, h2, getKey, h1] using ih

/-- Removing the element found at an index is a permutation-preserving split. -/
theorem perm_cons_eraseIdx {α : Type} :
    ∀ (l : List α) (i : Nat) (x : α), l[i]? = some x → l.Perm (x :: l.eraseIdx i)
  | [], i, x, h => by simp at h
  | a :: t, 0, x, h => by
    simp only [List.getElem?_cons_zero, Option.some.injEq] at h
    subst h
    simp [List.eraseIdx]
  | a :: t, i + 1, x, h => by
    simp only [List.getElem?_cons_succ] at h
    have ih := perm_cons_eraseIdx t i x h
    rw [List.eraseIdx_cons_succ]
    exact (List.Perm.cons a ih).trans (List.Perm.swap x a _)

/-- Writing a field of one heap object leaves reads through any other
reference unchanged. -/
theorem readField_setField_ne (h : Heap) (a b : Nat) (hne : a ≠ b) (k f : String)
    (v : HVal) : (h.setField b k v).readField a f = h.readField a f := by
  unfold Heap.setField Heap.readField
  simp [List.getElem?_set_ne (fun hba => hne hba.symm)]

/-- Minted object URLs carry the transient scheme. -/
theorem jsStartsWith_append (t : String) : jsStartsWith ("blob:" ++ t) "blob:" = true := by
  unfold jsStartsWith
  rw [ List.isPrefixOf_iff_prefix]
  have : ("blob:" ++ t).toList = "blob:".toList ++ t.toList := by
    simp [String.toList, String.data_append]
  rw [this]
  exact List.prefix_append _ _

/-- `x || 0` always evaluates to an integer. -/
theorem jsOrZero_int (x : JsNum) : ∃ n : Int, jsOrZero x = .int n := by
  cases x with
  | nan => exact ⟨0, rfl⟩
  | int n =>
    by_cases hn : n = 0
    · exact ⟨0, by simp [jsOrZero, hn]⟩
    · exact ⟨n, by simp [jsOrZero, hn]⟩

end DndPoc

namespace DndPoc

/-- C10: the structural-resize handler validates nothing — a `cols` edit that
parses to `-1` reaches `currentData.headers.length = newCols` and throws a
RangeError for the invalid array length `-1`, and an unparsable `rows` edit
propagates NaN into the computed cell-row count (`newCellRows`) before the
`newCells.length = newCellRows` assignment throws; no clamp to zero-or-more
exists anywhere in the resize path. -/
theorem resize_has_no_clamp :
    handleTableStructureChange defaultTableProps (.cols (.int (-1))) =
      .error (.rangeError (.int (-1))) ∧
    effectiveCellRows true .nan = .nan ∧
    handleTableStructureChange defaultTableProps (.rows .nan) =
      .error (.rangeError .nan) :=
  ⟨rfl, rfl, rfl⟩

/-- C2: evaluation at the failing input.  Enabling the header of a
shape-correct 4-row, 2-column headerless table leaves `data.cells` at 4 rows
(the handler computes the cell-row count from the PRE-toggle `hasHeader`),
while the invariant demands `rows - 1 = 3` rows; the committed state violates
the spec's shape invariant. -/
theorem hasHeader_toggle_breaks_shape :
    tableShapeOK tableNoHeader = true ∧
    handleTableStructureChange tableNoHeader (.hasHeader true) =
      .ok tableHeaderToggled ∧
    tableShapeOK tableHeaderToggled = false :=
  ⟨rfl, rfl, rfl⟩

/-- C5 counterexample: in DragAdvanced.jsx, dropping the existing canvas
instance `Button-100` onto the palette entry `Button` is not a no-op — the
reorder branch runs `arrayMove` with `findIndex`-result `-1`, which moves the
dragged instance to the end of the sequence. -/
theorem drop_on_palette_entry_mutates :
    (handleDragEndAdv advStore "Button-100" (some "Button") 7).map Component.id =
      ["Input-101", "Button-100"] ∧
    advStore.map Component.id = ["Button-100", "Input-101"] ∧
    (["Input-101", "Button-100"] : List String) ≠ ["Button-100", "Input-101"] :=
  ⟨rfl, rfl, by decide⟩

/-- C6 counterexample: in Drag.jsx's PropertiesPanel `handleStyleChange`, a
numeric style edit whose text fails to parse (the empty string) stores NaN,
not 0. -/
theorem numeric_style_parse_failure_stores_nan :
    getKey (handleStyleChange textStyles "fontSize" "" true) "fontSize" =
      some (.num .nan) ∧
    StyleEntry.num .nan ≠ StyleEntry.num (.int 0) :=
  ⟨rfl, by decide⟩

end DndPoc

namespace DndPoc

/-- An adjusted list that either appended placeholders or truncated keeps
every retained entry verbatim and fills every new position with the
placeholder. -/
theorem appendOrTake_spec {α : Type} {v : α} {old l : List α}
    (hs : (∃ k, l = old ++ List.replicate k v) ∨ (∃ m, l = old.take m)) :
    (∀ i : Nat, i < old.length → i < l.length → l[i]? = old[i]?) ∧
    (∀ i : Nat, old.length ≤ i → i < l.length → l[i]? = some v) := by
  rcases hs with ⟨k, rfl⟩ | ⟨m, rfl⟩
  · constructor
    · intro i h1 h2
      simp [List.getElem?_append, h1]
    · intro i h1 h2
      rw [List.getElem?_append_right h1]
      have : i - old.length < k := by
        rw [List.length_append, List.length_replicate] at h2; omega
      simp [List.getElem?_replicate, this]
  · constructor
    · intro i h1 h2
      have him : i < m := by rw [List.length_take] at h2; omega
      simp [List.getElem?_take, him]
    · intro i h1 h2
      rw [List.length_take] at h2; omega

/-- C1: the structural-resize handler preserves retained data verbatim.  For
every table props and every committed structural change (`rows`, `cols` or
`hasHeader`): every header whose index exists before and after is unchanged,
grown header positions hold the placeholder `"New Header"`; every cell whose
coordinates exist before and after is unchanged, grown column positions of a
retained row hold `"New Cell"`, and every appended row consists entirely of
`"New Cell"` placeholders (shrinking only truncates, which the same
statements cover). -/
theorem resize_preserves_data (p p' : TableProps) (e : TableEvent)
    (h : handleTableStructureChange p e = .ok p') :
    (∀ i : Nat, i < p.data.headers.length → i < p'.data.headers.length →
        p'.data.headers[i]? = p.data.headers[i]?) ∧
    (∀ i : Nat, p.data.headers.length ≤ i → i < p'.data.headers.length →
        p'.data.headers[i]? = some "New Header") ∧
    (∀ (r : Nat) (row row' : List String), p.data.cells[r]? = some row →
        p'.data.cells[r]? = some row' →
        (∀ c : Nat, c < row.length → c < row'.length → row'[c]? = row[c]?) ∧
        (∀ c : Nat, row.length ≤ c → c < row'.length → row'[c]? = some "New Cell")) ∧
    (∀ (r : Nat) (row' : List String), p.data.cells.length ≤ r →
        p'.data.cells[r]? = some row' →
        ∀ c : Nat, c < row'.length → row'[c]? = some "New Cell") := by
  simp only [handleTableStructureChange] at h
  obtain ⟨headers, hH, h⟩ := except_bind_ok h
  obtain ⟨cells1, hC1, h⟩ := except_bind_ok h
  obtain ⟨cells2, hC2, h⟩ := except_bind_ok h
  have hp' := except_pure_ok h
  have hdH : p'.data.headers = headers := by rw [← hp']
  have hdC : p'.data.cells = cells2 := by rw [← hp']
  rw [hdH, hdC]
  have hHspec := appendOrTake_spec (adjustHeaders_shape hH)
  have hC1s := adjustRowCount_shape hC1
  obtain ⟨hlen2, hpt⟩ := mapM_except_ok hC2
  refine ⟨hHspec.1, hHspec.2, ?_, ?_⟩
  · intro r row row' hrow hrow'
    obtain ⟨hr2, -⟩ := List.getElem?_eq_some.mp hrow'
    rw [hlen2] at hr2
    have hrlt : r < p.data.cells.length := (List.getElem?_eq_some.mp hrow).1
    have hmid : cells1[r]? = some row := by
      rcases hC1s with ⟨t, s, rfl⟩ | ⟨m, rfl⟩
      · rw [List.getElem?_append, if_pos hrlt]
        exact hrow
      · have hrm : r < m := by rw [List.length_take] at hr2; omega
        rw [List.getElem?_take, if_pos hrm]
        exact hrow
    obtain ⟨row'2, hrow'2, hpad⟩ := hpt r row hmid
    have heq : row'2 = row' := by
      rw [hrow'2] at hrow'; exact Option.some.inj hrow'
    subst heq
    exact appendOrTake_spec (padRow_shape hpad)
  · intro r row' hr hrow'
    obtain ⟨hr2, -⟩ := List.getElem?_eq_some.mp hrow'
    rw [hlen2] at hr2
    rcases hC1s with ⟨t, s, rfl⟩ | ⟨m, rfl⟩
    · have hmid : (p.data.cells ++
          List.replicate t (List.replicate s "New Cell"))[r]? =
          some (List.replicate s "New Cell") := by
        have hrt : r - p.data.cells.length < t := by
          rw [List.length_append, List.length_replicate] at hr2; omega
        rw [List.getElem?_append_right hr, List.getElem?_replicate, if_pos hrt]
      obtain ⟨row'2, hrow'2, hpad⟩ := hpt r (List.replicate s "New Cell") hmid
      have heq : row'2 = row' := by
        rw [hrow'2] at hrow'; exact Option.some.inj hrow'
      subst heq
      refine replicate_like_all ?_
      rcases padRow_shape hpad with ⟨k, hsh⟩ | ⟨m, hsh⟩
      · exact .inl ⟨s, k, hsh⟩
      · exact .inr ⟨s, m, hsh⟩
    · rw [List.length_take] at hr2; omega

end DndPoc

namespace DndPoc

/-- C1 witness: spec scenario 3 — growing `rows` from 4 to 6 on a 3-by-2 table
keeps header 2 and cell (3, 2) verbatim and fills row 4 with placeholders. -/
theorem resize_preserves_data_witness :
    tableScenario3Grown.data.headers[1]? = tableScenario3.data.headers[1]? ∧
    (["Edsger", "72"] : List String)[1]? = (["Edsger", "72"] : List String)[1]? ∧
    (["New Cell", "New Cell"] : List String)[0]? = some "New Cell" := by
  have h := resize_preserves_data tableScenario3 tableScenario3Grown (.rows (.int 6)) rfl
  exact ⟨h.1 1 (by decide) (by decide),
         (h.2.2.1 2 ["Edsger", "72"] ["Edsger", "72"] rfl rfl).1 1 (by decide) (by decide),
         h.2.2.2 3 ["New Cell", "New Cell"] (by decide) rfl 0 (by decide)⟩

/-- C3: dragging the existing canvas instance `activeId` onto the different
existing instance `overId` removes the element at the source index and
re-inserts it at the destination index computed against the post-removal
sequence, and leaves the multiset of instance ids unchanged. -/
theorem reorder_is_erase_insert (canvas : List Component) (activeId overId : String)
    (now : Nat) (x : Component)
    (hpal : availableComponents.contains activeId = false)
    (hA : canvas.any (fun c => c.id == activeId) = true)
    (hO : canvas.any (fun c => c.id == overId) = true)
    (hne : (activeId == overId) = false)
    (hx : canvas[canvas.findIdx (fun c => c.id == activeId)]? = some x) :
    handleDragEnd canvas activeId (some overId) now =
      List.insertIdx (canvas.findIdx (fun c => c.id == overId)) x
        (canvas.eraseIdx (canvas.findIdx (fun c => c.id == activeId))) ∧
    ((handleDragEnd canvas activeId (some overId) now).map Component.id :
        Multiset String) =
      (canvas.map Component.id : Multiset String) := by
  have hi := (List.getElem?_eq_some.mp hx).1
  have hj : canvas.findIdx (fun c => c.id == overId) < canvas.length := by
    apply List.findIdx_lt_length_of_exists
    obtain ⟨c, hc, hcp⟩ := List.any_eq_true.mp hO
    exact ⟨c, hc, hcp⟩
  have hres : handleDragEnd canvas activeId (some overId) now =
      List.insertIdx (canvas.findIdx (fun c => c.id == overId)) x
        (canvas.eraseIdx (canvas.findIdx (fun c => c.id == activeId))) := by
    have hIdxA : findIndexJs (fun c => c.id == activeId) canvas =
        (canvas.findIdx (fun c => c.id == activeId) : Int) := by
      unfold findIndexJs
      have : canvas.findIdx? (fun c => c.id == activeId) =
          some (canvas.findIdx (fun c => c.id == activeId)) := by
        rw [List.findIdx?_eq_some_iff_findIdx_eq]
        exact ⟨by
          apply List.findIdx_lt_length_of_exists
          obtain ⟨c, hc, hcp⟩ := List.any_eq_true.mp hA
          exact ⟨c, hc, hcp⟩, rfl⟩
      rw [this]
    have hIdxO : findIndexJs (fun c => c.id == overId) canvas =
        (canvas.findIdx (fun c => c.id == overId) : Int) := by
      unfold findIndexJs
      have : canvas.findIdx? (fun c => c.id == overId) =
          some (canvas.findIdx (fun c => c.id == overId)) := by
        rw [List.findIdx?_eq_some_iff_findIdx_eq]
        exact ⟨hj, rfl⟩
      rw [this]
    have hguard : (canvas.any (fun c => c.id == activeId) &&
        canvas.any (fun c => c.id == overId) && (activeId != overId)) = true := by
      rw [hA, hO]
      simp [bne, hne]
    have hj2 : ¬((canvas.findIdx (fun c => c.id == overId) : Int) < 0) := by
      omega
    have hk : spliceIdx canvas.length
        ((canvas.findIdx (fun c => c.id == activeId) : Int)) =
        canvas.findIdx (fun c => c.id == activeId) := by
      unfold spliceIdx
      rw [if_neg (by omega)]
      simp only [Int.toNat_ofNat]
      omega
    have hlen : (canvas.eraseIdx (canvas.findIdx (fun c => c.id == activeId))).length
        = canvas.length - 1 := by
      rw [List.length_eraseIdx]
      simp [hi]
    have hsp : spliceIdx
        (canvas.eraseIdx (canvas.findIdx (fun c => c.id == activeId))).length
        ((canvas.findIdx (fun c => c.id == overId) : Int)) =
        canvas.findIdx (fun c => c.id == overId) := by
      unfold spliceIdx
      rw [if_neg (by omega), hlen]
      simp only [Int.toNat_ofNat]
      omega
    simp only [handleDragEnd, hpal, Bool.false_eq_true, if_false, hguard, if_true,
      hIdxA, hIdxO, arrayMove, hk, hx, hj2, hsp]
  refine ⟨hres, ?_⟩
  rw [hres]
  rw [Multiset.coe_eq_coe]
  refine List.Perm.map Component.id ?_
  have h1 : canvas.Perm (x :: canvas.eraseIdx
      (canvas.findIdx (fun c => c.id == activeId))) :=
    perm_cons_eraseIdx canvas _ x hx
  have h2 : List.insertIdx (canvas.findIdx (fun c => c.id == overId)) x
      (canvas.eraseIdx (canvas.findIdx (fun c => c.id == activeId))) |>.Perm
      (x :: canvas.eraseIdx (canvas.findIdx (fun c => c.id == activeId))) := by
    apply List.perm_insertIdx
    rw [List.length_eraseIdx]
    simp [hi]
    omega
  exact h2.trans h1.symm

/-- C3 witness: spec scenario 2 — store `[A, B, C]`, drag `A`, drop on `C`,
result `[B, C, A]`; the id multiset is unchanged. -/
theorem reorder_is_erase_insert_witness :
    handleDragEnd store3 "Text-1" (some "Image-3") 17 = [compB, compC, compA] ∧
    ((handleDragEnd store3 "Text-1" (some "Image-3") 17).map Component.id :
        Multiset String) = (store3.map Component.id : Multiset String) := by
  have h := reorder_is_erase_insert store3 "Text-1" "Image-3" 17 compA
    (by decide) (by decide) (by decide) (by decide) rfl
  exact ⟨h.1.trans rfl, h.2⟩

end DndPoc

namespace DndPoc

/-- C4: `updateProps` is a whole-object replacement.  The matching instance's
props become exactly `newProps` (keys omitted by the caller are gone, no key
beyond `newProps` remains, since the stored field list IS `newProps`);
instances with other ids are untouched; and when no instance carries the id
the sequence is returned unchanged. -/
theorem updateProps_whole_replace (canvas : List Component) (id : String)
    (newProps : PropsObj) :
    (∀ c, c ∈ handleUpdateComponent canvas id newProps → c.id = id →
        c.props = newProps) ∧
    (∀ (k : Nat) (c : Component), canvas[k]? = some c → c.id ≠ id →
        (handleUpdateComponent canvas id newProps)[k]? = some c) ∧
    (canvas.all (fun c => c.id != id) = true →
        handleUpdateComponent canvas id newProps = canvas) := by
  refine ⟨?_, ?_, ?_⟩
  · intro c hc hcid
    obtain ⟨c0, hc0, hc0e⟩ := List.mem_map.mp hc
    by_cases h0 : (c0.id == id) = true
    · rw [if_pos h0] at hc0e
      rw [← hc0e]
    · rw [if_neg h0] at hc0e
      subst hc0e
      exact absurd (by simpa using hcid) h0
  · intro k c hk hne
    have hfalse : (c.id == id) = false := beq_eq_false_iff_ne.mpr hne
    unfold handleUpdateComponent
    rw [List.getElem?_map, hk]
    simp only [Option.map_some']
    rw [if_neg (by simp [hfalse])]
  · intro hall
    unfold handleUpdateComponent
    have hcong : ∀ c ∈ canvas,
        (if c.id == id then { c with props := newProps } else c) = c := by
      intro c hc
      have hb := List.all_eq_true.mp hall c hc
      simp only [bne] at hb
      rw [if_neg (by simp_all)]
    rw [List.map_congr_left hcong]
    exact List.map_id' canvas

/-- C4 witness: spec scenario 5 — replacing the props of `Input-1` leaves
exactly the submitted object, and an update aimed at an absent id is a no-op. -/
theorem updateProps_whole_replace_witness :
    demoUpdated.props = demoProps ∧
    handleUpdateComponent demoCanvas "Absent-9" demoProps = demoCanvas := by
  have h1 := updateProps_whole_replace demoCanvas "Input-1" demoProps
  have h2 := updateProps_whole_replace demoCanvas "Absent-9" demoProps
  refine ⟨h1.1 demoUpdated ?_ rfl, h2.2.2 (by decide)⟩
  show demoUpdated ∈ [demoUpdated]
  exact List.mem_singleton.mpr rfl

/-- C5 (amended): in Drag.jsx, a cancelled drag of anything that is not a
palette type name leaves the store unchanged: no drop target, a drop on the
dragged element itself, or a drop target resolving to no canvas instance
(palette entries included) all commit nothing. -/
theorem cancelled_drag_is_noop (canvas : List Component) (active : String)
    (over : Option String) (now : Nat)
    (hpal : availableComponents.contains active = false)
    (hcancel : over = none ∨ over = some active ∨
      ∃ oid, over = some oid ∧ canvas.all (fun c => c.id != oid) = true) :
    handleDragEnd canvas active over now = canvas := by
  rcases hcancel with h | h | ⟨oid, h, hall⟩
  · subst h; rfl
  · subst h
    simp only [handleDragEnd, hpal, Bool.false_eq_true, if_false]
    rw [if_neg]
    simp [bne]
  · subst h
    have hanyO : canvas.any (fun c => c.id == oid) = false := by
      rw [Bool.eq_false_iff]
      intro hany
      obtain ⟨c, hc, hcp⟩ := List.any_eq_true.mp hany
      have hb := List.all_eq_true.mp hall c hc
      simp [bne, hcp] at hb
    simp only [handleDragEnd, hpal, Bool.false_eq_true, if_false]
    rw [if_neg]
    simp [hanyO]

/-- C5 witness: dropping the canvas instance `Text-1` of store `[A, B, C]`
onto the palette entry `Text` leaves the Drag.jsx store unchanged. -/
theorem cancelled_drag_is_noop_witness :
    handleDragEnd store3 "Text-1" (some "Text") 5 = store3 :=
  cancelled_drag_is_noop store3 "Text-1" (some "Text") 5 (by decide)
    (.inr (.inr ⟨"Text", rfl, by decide⟩))

end DndPoc

namespace DndPoc

/-- C6 (amended): in the DragDrop variant's `handleStyleChange` (the handler
with the `|| 0` fallback), every style edit stores an integer, and a parse
failure stores exactly 0. -/
theorem styleChangeDD_coerces_to_zero (styles : List (String × StyleEntry))
    (name value : String) :
    (jsParseInt value = .nan →
      getKey (handleStyleChangeDD styles name value) name =
        some (.num (.int 0))) ∧
    (∃ n : Int, getKey (handleStyleChangeDD styles name value) name =
        some (.num (.int n))) := by
  unfold handleStyleChangeDD
  constructor
  · intro hn
    rw [getKey_setKey_self, hn]
    rfl
  · obtain ⟨n, hn⟩ := jsOrZero_int (jsParseInt value)
    exact ⟨n, by rw [getKey_setKey_self, hn]⟩

/-- C6 witness: an empty `marginTop` submission in the DragDrop variant stores
the integer 0. -/
theorem styleChangeDD_coerces_to_zero_witness :
    getKey (handleStyleChangeDD textStyles "marginTop" "") "marginTop" =
      some (.num (.int 0)) :=
  (styleChangeDD_coerces_to_zero textStyles "marginTop" "").1 rfl

/-- C7: the export document is `{ name: "Exported Page", components }`, and
parsing it back recovers the component sequence with identical ids, types,
order and props. -/
theorem toJSON_fromJSON_round_trip (components : List Component) :
    fromJSON (pageJson components) = some components := by
  show (components.map componentToValue).mapM componentFromValue = some components
  induction components with
  | nil => rfl
  | cons c t ih =>
    rw [List.map_cons, List.mapM_cons]
    have hc : componentFromValue (componentToValue c) = some c := rfl
    rw [hc, ih]
    rfl

/-- C7 witness: the scenario store `[A, B, C]` round-trips through the export
document. -/
theorem toJSON_fromJSON_round_trip_witness :
    fromJSON (pageJson store3) = some store3 :=
  toJSON_fromJSON_round_trip store3

/-- C8: a resource-bound replacement of an Image `src` whose previous value is
a transient blob URL revokes exactly that URL exactly once, both in the
file-pick handler and in the drop handler; two successive replacements revoke
exactly two URLs — the original one and the first minted one — leaving only
the currently bound URL unreleased. -/
theorem resource_replace_releases_exactly_once (props : PropsObj) (f f2 : JsFile)
    (n : Nat) (s : String)
    (hf : jsStartsWith f.mimeType "image/" = true)
    (hf2 : jsStartsWith f2.mimeType "image/" = true)
    (hsrc : getKey props "src" = some (.str s))
    (hblob : jsStartsWith s "blob:" = true)
    (hne : (s == "") = false) :
    (handleImageFileSelect props (some f) n).2.2 = [s] ∧
    (handleDrop props (some f) n).2.2 = [s] ∧
    (replaceTwice props (some f) (some f2) n).2.2 =
      [s, "blob:" ++ toString n] ∧
    getKey (replaceTwice props (some f) (some f2) n).1 "src" =
      some (.str ("blob:" ++ toString (n + 1))) := by
  have htrans : isTransientSrc (getKey props "src") = some s := by
    rw [hsrc]
    simp [isTransientSrc, bne, hne, hblob]
  have hsel1 : handleImageFileSelect props (some f) n =
      (setKey props "src" (.str ("blob:" ++ toString n)), n + 1, [s]) := by
    simp [handleImageFileSelect, hf, htrans, createObjectURL]
  have hsrc2 : getKey (setKey props "src" (.str ("blob:" ++ toString n))) "src" =
      some (.str ("blob:" ++ toString n)) := getKey_setKey_self _ _ _
  have htrans2 : isTransientSrc (getKey
      (setKey props "src" (.str ("blob:" ++ toString n))) "src") =
      some ("blob:" ++ toString n) := by
    rw [hsrc2]
    have hb := jsStartsWith_append (toString n)
    have hnz : (("blob:" ++ toString n) == "") = false := by
      rw [beq_eq_false_iff_ne]
      intro hcontra
      have hnil : ("blob:" ++ toString n).toList = [] := by rw [hcontra]; rfl
      rw [String.toList, String.data_append] at hnil
      simp at hnil
    simp [isTransientSrc, bne, hnz, hb]
  have hsel2 : handleImageFileSelect
      (setKey props "src" (.str ("blob:" ++ toString n))) (some f2) (n + 1) =
      (setKey (setKey props "src" (.str ("blob:" ++ toString n))) "src"
        (.str ("blob:" ++ toString (n + 1))), n + 2, ["blob:" ++ toString n]) := by
    simp [handleImageFileSelect, hf2, htrans2, createObjectURL]
  have hdropTrans : isTransientSrc (getKey
      (props.filter (fun kv => kv.1 != "styles")) "src") = some s := by
    rw [getKey_filter_ne props "src" "styles" (by decide), hsrc]
    simp [isTransientSrc, bne, hne, hblob]
  refine ⟨by rw [hsel1], ?_, ?_, ?_⟩
  · simp [handleDrop, hf, hdropTrans, createObjectURL]
  · simp [replaceTwice, hsel1, hsel2]
  · simp only [replaceTwice, hsel1, hsel2]
    exact getKey_setKey_self _ _ _

end DndPoc

namespace DndPoc

/-- C8 witness: replacing the blob-bound `src` of a concrete Image instance
revokes exactly `blob:7`; replacing twice revokes exactly `blob:7` then the
first minted URL `blob:9`. -/
theorem resource_replace_releases_exactly_once_witness :
    (handleImageFileSelect imageBlobProps (some pngFile) 9).2.2 = ["blob:7"] ∧
    (replaceTwice imageBlobProps (some pngFile) (some pngFile) 9).2.2 =
      ["blob:7", "blob:9"] := by
  have h := resource_replace_releases_exactly_once imageBlobProps pngFile pngFile
    9 "blob:7" (by decide) (by decide) rfl (by decide) (by decide)
  exact ⟨h.1, h.2.2.1⟩

/-- C9 counterexample: DragAdvanced.jsx's palette insertion binds the Button
template object itself (`props: DEFAULT_PROPS[active.id]`, line 552), so the
inserted instance's props are the template, not an independent copy:
assigning `text` through the instance's props reference changes what the
template reads afterwards. -/
theorem template_shared_by_reference :
    insertPropsAdv 0 = HVal.ref 0 ∧
    buttonTemplateHeap.readField 0 "text" = some (.str "Click Me") ∧
    (buttonTemplateHeap.setField 0 "text" (.str "Mutated")).readField 0 "text" =
      some (.str "Mutated") ∧
    some (HVal.str "Mutated") ≠ some (HVal.str "Click Me") :=
  ⟨rfl, rfl, rfl, by decide⟩

/-- C9 (amended): Drag.jsx's palette insertion deep-clones the template
through the JSON round-trip: cloning the Button template allocates fresh
objects (the styles clone at address 2, the props clone at address 3), and
writing any field of either cloned object leaves every read of the template's
own objects (addresses 0 and 1) unchanged. -/
theorem insertion_clone_is_independent :
    insertPropsDrag buttonTemplateHeap 0 = (buttonHeapCloned, .ref 3) ∧
    (∀ (a : Nat) (k f : String) (v : HVal), a = 2 ∨ a = 3 →
      (buttonHeapCloned.setField a k v).readField 0 f =
          buttonHeapCloned.readField 0 f ∧
      (buttonHeapCloned.setField a k v).readField 1 f =
          buttonHeapCloned.readField 1 f) := by
  refine ⟨rfl, ?_⟩
  intro a k f v ha
  rcases ha with rfl | rfl
  · exact ⟨readField_setField_ne _ 0 2 (by decide) k f v,
           readField_setField_ne _ 1 2 (by decide) k f v⟩
  · exact ⟨readField_setField_ne _ 0 3 (by decide) k f v,
           readField_setField_ne _ 1 3 (by decide) k f v⟩

/-- C9 witness: mutating the cloned props object (address 3) does not change
the template's `text`. -/
theorem insertion_clone_is_independent_witness :
    (buttonHeapCloned.setField 3 "text" (.str "Changed")).readField 0 "text" =
      buttonHeapCloned.readField 0 "text" :=
  (insertion_clone_is_independent.2 3 "text" "text" (.str "Changed") (.inr rfl)).1

end DndPoc
